import Mathlib

/-!
Verification of the schema-migration engine and repository layer of the
chat application backend.

The Python source is embedded shallowly: each stateful component becomes a
Lean state type with explicit state passing.  An awaited `async` call is
modelled as the sequential execution of the called operation (single
logical task, per the concurrency model in section 5 of the spec).  A
call of an `async def` without `await` — which is what both SQLite
repositories do at every base-helper call site — is modelled with real
Python calling semantics: a coroutine object is created and the body of
the helper never runs.  Text values (filenames, usernames, error
messages) are modelled as `List Char`, with lexicographic comparison of
character lists standing for the byte-wise comparison SQLite and Python
apply to such strings.
-/

/-- Error taxonomy, from `src/domain/errors/exceptions.py`.  Only the two
kinds raised by the storage core are modelled: `StorageError` and
`RepositoryError`.  The carried message is the formatted exception text. -/
inductive ChatAppError where
  | storage (msg : List Char)
  | repository (msg : List Char)
  deriving DecidableEq, Repr

/-- One SQL migration source file, from the point of view of
`AsyncDatabaseMigrator` (`src/infrastructure/database/migrator.py`).
`stem` is the filename without the `.sql` extension (`migration_file.stem`,
the migration id).  Reading the file and running its content through
`executescript` either succeeds or raises (`OSError` on a read failure,
`aiosqlite.Error` on malformed SQL); the flag `ok` abstracts that outcome
and `errText` is the text of the underlying exception when it fails. -/
structure MigFile where
  stem : List Char
  ok : Bool
  errText : List Char
  deriving DecidableEq, Repr

/-- Full filename of a migration file as seen by the `*.sql` glob; the
sort in `_get_pending_migrations` orders paths by this name. -/
def MigFile.fileName (f : MigFile) : List Char := f.stem ++ ".sql".data

/-- One row of the `schema_migrations` bookkeeping table
(`id INTEGER PRIMARY KEY AUTOINCREMENT, migration_id TEXT UNIQUE NOT NULL,
applied_at TIMESTAMP DEFAULT CURRENT_TIMESTAMP`).  The `applied_at`
column is filled by the database wall clock and no claim depends on it,
so it is not carried in the model. -/
structure SchemaRow where
  id : Nat
  migration_id : List Char
  deriving DecidableEq, Repr

/-- State of the `schema_migrations` table: its rows in insertion order
plus the next `AUTOINCREMENT` id.  `_ensure_migrations_table` runs
`CREATE TABLE IF NOT EXISTS`, which leaves an existing table untouched,
so on this abstraction it is the identity and is not modelled further. -/
structure MigState where
  rows : List SchemaRow
  nextId : Nat
  deriving DecidableEq, Repr

/-- A freshly created database: empty bookkeeping table, ids start at 1. -/
def MigState.fresh : MigState := ⟨[], 1⟩

/-- The set of applied migration ids, as read by
`_get_applied_migrations` (`SELECT migration_id FROM schema_migrations`). -/
def appliedMigrations (s : MigState) : List (List Char) :=
  s.rows.map SchemaRow.migration_id

/-- Embeds `AsyncDatabaseMigrator._get_pending_migrations` (migrator.py
lines 83-103).  The migrations directory is `none` when it does not exist
(`if not self.migrations_dir.exists(): return []`); otherwise it holds
the files in directory-listing order.  Candidates are sorted by filename
(`sorted(self.migrations_dir.glob("*.sql"))`) and files whose stem is
already applied are filtered out. -/
def get_pending_migrations (applied : List (List Char))
    (dir : Option (List MigFile)) : List MigFile :=
  match dir with
  | none => []
  | some files =>
      (List.insertionSort
        (fun a b => MigFile.fileName a ≤ MigFile.fileName b) files).filter
        (fun f => !decide (f.stem ∈ applied))

/-- The message of the `StorageError` raised by `_apply_migration` when
reading or executing a migration file fails:
`f"Failed to apply migration {migration_id}: {e}"`. -/
def applyFailMsg (f : MigFile) : List Char :=
  "Failed to apply migration ".data ++ f.stem ++ ": ".data ++ f.errText

/-- The message of the `StorageError` raised by `_apply_migration` when
the bookkeeping insert itself violates the UNIQUE constraint on
`migration_id`. -/
def uniqueFailMsg (f : MigFile) : List Char :=
  "Failed to apply migration ".data ++ f.stem ++
    ": UNIQUE constraint failed: schema_migrations.migration_id".data

/-- Embeds `AsyncDatabaseMigrator._apply_migration` (migrator.py lines
105-129): read the file text and run it with `executescript`, then
`INSERT INTO schema_migrations (migration_id) VALUES (?)`, then commit.
Any `OSError` or `aiosqlite.Error` is re-raised as a `StorageError`
naming the migration id; in that case no bookkeeping row is written. -/
def apply_migration (s : MigState) (f : MigFile) : Except ChatAppError MigState :=
  if f.ok then
    if f.stem ∈ appliedMigrations s then
      .error (.storage (uniqueFailMsg f))
    else
      .ok ⟨s.rows ++ [⟨s.nextId, f.stem⟩], s.nextId + 1⟩
  else
    .error (.storage (applyFailMsg f))

/-- Result of one `migrate()` call: the final table state (each file
commits individually, so rows written before a failure persist), the
stems whose files `_apply_migration` was called on, in order, and the
error that aborted the run, if any. -/
structure MigrateOutcome where
  state : MigState
  executed : List (List Char)
  error : Option ChatAppError
  deriving DecidableEq, Repr

/-- The `for migration_file in pending_migrations` loop of `migrate()`
(migrator.py lines 56-58): apply each pending file in order and stop at
the first failure. -/
def runPending : MigState → List MigFile → MigrateOutcome
  | s, [] => ⟨s, [], none⟩
  | s, f :: fs =>
      match apply_migration s f with
      | .ok s' =>
          let rest := runPending s' fs
          ⟨rest.state, f.stem :: rest.executed, rest.error⟩
      | .error e => ⟨s, [f.stem], some e⟩

/-- Embeds `AsyncDatabaseMigrator.migrate` (migrator.py lines 45-60):
ensure the bookkeeping table, read the applied set, compute the pending
list, apply it in order. -/
def migrate (s : MigState) (dir : Option (List MigFile)) : MigrateOutcome :=
  runPending s (get_pending_migrations (appliedMigrations s) dir)

/-- Record of one applied migration as returned by
`get_migration_history` (the `applied_at` column is abstracted away, as
in `SchemaRow`). -/
structure MigrationRecord where
  id : Nat
  migration_id : List Char
  deriving DecidableEq, Repr

/-- Embeds `AsyncDatabaseMigrator.get_migration_history` (migrator.py
lines 131-153): `SELECT id, migration_id, applied_at FROM
schema_migrations ORDER BY id ASC`, each row mapped to a record. -/
def get_migration_history (s : MigState) : List MigrationRecord :=
  (List.insertionSort (fun a b : SchemaRow => a.id ≤ b.id) s.rows).map
    (fun r => ⟨r.id, r.migration_id⟩)

/-- Claim C9: for every connection state, `migrate()` against a
non-existent migrations directory succeeds (no error), applies zero
migrations and leaves the state untouched, and on a fresh database
`get_migration_history()` afterwards returns the empty list. -/
theorem migrate_missing_directory (s : MigState) :
    migrate s none = ⟨s, [], none⟩ ∧
    get_migration_history (migrate MigState.fresh none).state = [] :=
  ⟨rfl, rfl⟩

/-- Unfolding equation: pending list over an existing directory. -/
theorem get_pending_some (applied : List (List Char)) (files : List MigFile) :
    get_pending_migrations applied (some files) =
      (List.insertionSort
        (fun a b => MigFile.fileName a ≤ MigFile.fileName b) files).filter
        (fun f => !decide (f.stem ∈ applied)) := rfl

/-- Successful application of a fresh, healthy migration file. -/
theorem apply_migration_ok {s : MigState} {f : MigFile} (h1 : f.ok = true)
    (h2 : f.stem ∉ appliedMigrations s) :
    apply_migration s f = .ok ⟨s.rows ++ [⟨s.nextId, f.stem⟩], s.nextId + 1⟩ := by
  unfold apply_migration
  rw [if_pos h1, if_neg h2]

/-- A failing migration script aborts with a `StorageError` that names
the migration id. -/
theorem apply_migration_fail {s : MigState} {f : MigFile} (h : f.ok = false) :
    apply_migration s f = .error (.storage (applyFailMsg f)) := by
  unfold apply_migration
  rw [if_neg (by simp [h])]

/-- Inversion: a successful `_apply_migration` step came from a healthy
file with a fresh stem and appended exactly one bookkeeping row. -/
theorem apply_migration_ok_inv {s : MigState} {f : MigFile} {s' : MigState}
    (h : apply_migration s f = .ok s') :
    f.ok = true ∧ f.stem ∉ appliedMigrations s ∧
      s' = ⟨s.rows ++ [⟨s.nextId, f.stem⟩], s.nextId + 1⟩ := by
  unfold apply_migration at h
  split at h
  · split at h
    · exact absurd h (by simp)
    · cases h
      exact ⟨by assumption, by assumption, rfl⟩
  · exact absurd h (by simp)

/-- Unfolding equation: the migration loop on a file that applies. -/
theorem runPending_cons_ok {s : MigState} {f : MigFile} {s' : MigState}
    (fs : List MigFile) (h : apply_migration s f = .ok s') :
    runPending s (f :: fs) =
      ⟨(runPending s' fs).state, f.stem :: (runPending s' fs).executed,
        (runPending s' fs).error⟩ := by
  conv_lhs => rw [runPending]
  rw [h]

/-- Unfolding equation: the migration loop stops at a failing file. -/
theorem runPending_cons_error {s : MigState} {f : MigFile} {e : ChatAppError}
    (fs : List MigFile) (h : apply_migration s f = .error e) :
    runPending s (f :: fs) = ⟨s, [f.stem], some e⟩ := by
  conv_lhs => rw [runPending]
  rw [h]

/-- Rows are only ever appended by a migration run: the state after
`runPending` extends the starting rows. -/
theorem runPending_rows_extend (s : MigState) (fs : List MigFile) :
    ∃ t, (runPending s fs).state.rows = s.rows ++ t := by
  induction fs generalizing s with
  | nil => exact ⟨[], by simp [runPending]⟩
  | cons f fs ih =>
      cases happ : apply_migration s f with
      | ok s' =>
          obtain ⟨t, ht⟩ := ih s'
          have hs' := (apply_migration_ok_inv happ).2.2
          rw [runPending_cons_ok fs happ]
          subst hs'
          exact ⟨⟨s.nextId, f.stem⟩ :: t, by rw [ht]; simp⟩
      | error e =>
          rw [runPending_cons_error fs happ]
          exact ⟨[], by simp⟩

/-- An id applied before a migration run is still applied after it. -/
theorem applied_mono (s : MigState) (fs : List MigFile) {a : List Char}
    (h : a ∈ appliedMigrations s) :
    a ∈ appliedMigrations (runPending s fs).state := by
  obtain ⟨t, ht⟩ := runPending_rows_extend s fs
  unfold appliedMigrations at *
  rw [ht, List.map_append]
  exact List.mem_append_left _ h

/-- After a migration run that raised no error, every file handed to the
loop has its stem recorded in the bookkeeping table. -/
theorem runPending_applied_of_ok (s : MigState) (fs : List MigFile)
    (h : (runPending s fs).error = none) :
    ∀ f ∈ fs, f.stem ∈ appliedMigrations (runPending s fs).state := by
  induction fs generalizing s with
  | nil => intro f hf; cases hf
  | cons g fs ih =>
      intro f hf
      cases happ : apply_migration s g with
      | ok s' =>
          rw [runPending_cons_ok fs happ] at h ⊢
          simp only at h ⊢
          have hg : g.stem ∈ appliedMigrations s' := by
            rw [(apply_migration_ok_inv happ).2.2]
            unfold appliedMigrations
            simp
          rcases List.mem_cons.mp hf with hfg | hftail
          · subst hfg; exact applied_mono s' fs hg
          · exact ih s' h f hftail
      | error e =>
          rw [runPending_cons_error fs happ] at h
          simp at h

/-- Claim C1: calling `migrate()` twice in a row applies each migration
file at most once.  If the first call succeeded, the second call runs no
migration script at all (`executed = []`), raises nothing, and leaves the
`schema_migrations` table in exactly the state the first call left it
(same rows, hence same row count and same migration_id set). -/
theorem migrate_idempotent (s : MigState) (dir : Option (List MigFile))
    (h : (migrate s dir).error = none) :
    migrate (migrate s dir).state dir = ⟨(migrate s dir).state, [], none⟩ := by
  cases dir with
  | none => rfl
  | some files =>
      have h' : (runPending s
          (get_pending_migrations (appliedMigrations s) (some files))).error = none := h
      have hpend : get_pending_migrations
          (appliedMigrations (migrate s (some files)).state) (some files) = [] := by
        rw [get_pending_some, List.filter_eq_nil_iff]
        intro f hf
        simp only [Bool.not_eq_true, Bool.not_eq_true', decide_eq_false_iff_not,
          Decidable.not_not]
        by_cases hs : f.stem ∈ appliedMigrations s
        · exact applied_mono s _ hs
        · have hfpend : f ∈ get_pending_migrations (appliedMigrations s) (some files) := by
            rw [get_pending_some, List.mem_filter]
            exact ⟨hf, by simp [hs]⟩
          exact runPending_applied_of_ok s
            (get_pending_migrations (appliedMigrations s) (some files)) h' f hfpend
      show runPending (migrate s (some files)).state
        (get_pending_migrations
          (appliedMigrations (migrate s (some files)).state) (some files)) = _
      rw [hpend]
      rfl

/-- Witness for C1 at the example of the spec: a directory holding only
`003_skip_test.sql`, migrated twice from a fresh database. -/
theorem migrate_idempotent_witness :
    migrate (migrate MigState.fresh (some [⟨"003_skip_test".data, true, []⟩])).state
        (some [⟨"003_skip_test".data, true, []⟩]) =
      ⟨(migrate MigState.fresh (some [⟨"003_skip_test".data, true, []⟩])).state,
        [], none⟩ :=
  migrate_idempotent MigState.fresh (some [⟨"003_skip_test".data, true, []⟩])
    (by decide)

/-- The bookkeeping rows an all-successful run inserts for the files
`fs`, with `AUTOINCREMENT` ids starting at `base`. -/
def newRows (base : Nat) : List MigFile → List SchemaRow
  | [] => []
  | f :: fs => ⟨base, f.stem⟩ :: newRows (base + 1) fs

/-- The inserted migration ids are exactly the file stems, in order. -/
theorem newRows_map_migration_id (base : Nat) (fs : List MigFile) :
    (newRows base fs).map SchemaRow.migration_id = fs.map MigFile.stem := by
  induction fs generalizing base with
  | nil => rfl
  | cons f fs ih => simp [newRows, ih]

/-- Every id handed out in an all-successful run is at least the base. -/
theorem newRows_id_ge (base : Nat) (fs : List MigFile) :
    ∀ r ∈ newRows base fs, base ≤ r.id := by
  induction fs generalizing base with
  | nil => intro r hr; cases hr
  | cons f fs ih =>
      intro r hr
      rcases List.mem_cons.mp hr with h | h
      · subst h; exact Nat.le_refl _
      · exact Nat.le_trans (Nat.le_succ _) (ih (base + 1) r h)

/-- The inserted rows carry strictly increasing ids, hence are already
in `ORDER BY id ASC` order. -/
theorem newRows_sorted (base : Nat) (fs : List MigFile) :
    List.Sorted (fun a b : SchemaRow => a.id ≤ b.id) (newRows base fs) := by
  induction fs generalizing base with
  | nil => exact List.sorted_nil
  | cons f fs ih =>
      rw [newRows, List.sorted_cons]
      exact ⟨fun r hr => Nat.le_trans (Nat.le_succ _) (newRows_id_ge (base + 1) fs r hr),
        ih (base + 1)⟩

/-- A run over healthy files with pairwise distinct stems, none of them
applied yet, succeeds and appends exactly one row per file, in order. -/
theorem runPending_all_ok (s : MigState) (fs : List MigFile)
    (hok : ∀ f ∈ fs, f.ok = true)
    (hnd : (fs.map MigFile.stem).Nodup)
    (hdisj : ∀ f ∈ fs, f.stem ∉ appliedMigrations s) :
    runPending s fs =
      ⟨⟨s.rows ++ newRows s.nextId fs, s.nextId + fs.length⟩,
        fs.map MigFile.stem, none⟩ := by
  induction fs generalizing s with
  | nil => simp [runPending, newRows]
  | cons f fs ih =>
      have happ : apply_migration s f =
          .ok ⟨s.rows ++ [⟨s.nextId, f.stem⟩], s.nextId + 1⟩ :=
        apply_migration_ok (hok f (List.mem_cons_self f fs))
          (hdisj f (List.mem_cons_self f fs))
      rw [runPending_cons_ok fs happ]
      have hrest := ih ⟨s.rows ++ [⟨s.nextId, f.stem⟩], s.nextId + 1⟩
        (fun g hg => hok g (List.mem_cons_of_mem f hg))
        ((List.nodup_cons.mp hnd).2)
        (by
          intro g hg
          unfold appliedMigrations
          simp only [List.map_append, List.map_cons, List.map_nil,
            List.mem_append, List.mem_cons, List.not_mem_nil]
          rintro (hmem | hgf)
          · exact hdisj g (List.mem_cons_of_mem f hg) hmem
          · rcases hgf with hgf | hfalse
            · exact (List.nodup_cons.mp hnd).1 (hgf ▸ List.mem_map_of_mem MigFile.stem hg)
            · exact hfalse)
      rw [hrest]
      simp only [newRows, List.map_cons, List.length_cons]
      have h2 : s.nextId + 1 + fs.length = s.nextId + (fs.length + 1) := by omega
      rw [List.append_assoc, List.singleton_append, h2]

/-- Splitting a run after a successful prefix: the loop continues from
the state the prefix left. -/
theorem runPending_append (s : MigState) (pre rest : List MigFile)
    (h : (runPending s pre).error = none) :
    runPending s (pre ++ rest) =
      ⟨(runPending (runPending s pre).state rest).state,
        (runPending s pre).executed ++
          (runPending (runPending s pre).state rest).executed,
        (runPending (runPending s pre).state rest).error⟩ := by
  induction pre generalizing s with
  | nil => simp [runPending]
  | cons f pre ih =>
      cases happ : apply_migration s f with
      | ok s' =>
          rw [runPending_cons_ok pre happ] at h ⊢
          simp only at h
          rw [List.cons_append, runPending_cons_ok (pre ++ rest) happ, ih s' h]
          simp
      | error e =>
          rw [runPending_cons_error pre happ] at h
          simp at h

/-- Claim C2: if executing a migration script fails (malformed SQL or a
read error), `migrate()` surfaces a `StorageError` whose message contains
the id of the failing migration, writes no bookkeeping row for it, and
attempts no later pending file: the files handed to `_apply_migration`
are exactly the successful prefix plus the failing file. -/
theorem migrate_fail_fast (s : MigState) (files pre post : List MigFile)
    (f : MigFile)
    (hsplit : get_pending_migrations (appliedMigrations s) (some files) =
      pre ++ f :: post)
    (hnd : ((pre ++ f :: post).map MigFile.stem).Nodup)
    (hpre : ∀ g ∈ pre, g.ok = true)
    (hf : f.ok = false) :
    (migrate s (some files)).error = some (.storage (applyFailMsg f)) ∧
    List.IsInfix f.stem (applyFailMsg f) ∧
    f.stem ∉ appliedMigrations (migrate s (some files)).state ∧
    (migrate s (some files)).executed = pre.map MigFile.stem ++ [f.stem] := by
  have hm : migrate s (some files) = runPending s (pre ++ f :: post) := by
    show runPending s (get_pending_migrations (appliedMigrations s) (some files)) = _
    rw [hsplit]
  have hpend_mem : ∀ g ∈ pre ++ f :: post, g.stem ∉ appliedMigrations s := by
    intro g hg
    have hginpend : g ∈ get_pending_migrations (appliedMigrations s) (some files) :=
      hsplit ▸ hg
    rw [get_pending_some, List.mem_filter] at hginpend
    simpa using hginpend.2
  have hndparts := List.nodup_append.mp (by simpa [List.map_append] using hnd)
  have hrunpre := runPending_all_ok s pre hpre hndparts.1
    (fun g hg => hpend_mem g (List.mem_append_left _ hg))
  have herr : (runPending s pre).error = none := by rw [hrunpre]
  have hfapp : apply_migration (runPending s pre).state f =
      .error (.storage (applyFailMsg f)) := apply_migration_fail hf
  rw [hm, runPending_append s pre (f :: post) herr, runPending_cons_error post hfapp]
  refine ⟨rfl, ⟨"Failed to apply migration ".data, ": ".data ++ f.errText,
    by simp [applyFailMsg]⟩, ?_, by rw [hrunpre]⟩
  rw [hrunpre]
  unfold appliedMigrations
  simp only [List.map_append, List.mem_append, newRows_map_migration_id]
  rintro (hins | hinpre)
  · exact hpend_mem f (List.mem_append_right _ (List.mem_cons_self f post)) hins
  · exact hndparts.2.2 hinpre (by simp)

/-- Witness for C2 at the example of the spec: a directory containing
only `004_invalid.sql`, whose SQL is malformed. -/
theorem migrate_fail_fast_witness :
    (migrate MigState.fresh
        (some [⟨"004_invalid".data, false, "malformed SQL".data⟩])).error =
      some (.storage (applyFailMsg ⟨"004_invalid".data, false, "malformed SQL".data⟩)) ∧
    List.IsInfix "004_invalid".data
      (applyFailMsg ⟨"004_invalid".data, false, "malformed SQL".data⟩) ∧
    "004_invalid".data ∉ appliedMigrations
      (migrate MigState.fresh
        (some [⟨"004_invalid".data, false, "malformed SQL".data⟩])).state ∧
    (migrate MigState.fresh
        (some [⟨"004_invalid".data, false, "malformed SQL".data⟩])).executed =
      List.map MigFile.stem [] ++ ["004_invalid".data] :=
  migrate_fail_fast MigState.fresh
    [⟨"004_invalid".data, false, "malformed SQL".data⟩] [] []
    ⟨"004_invalid".data, false, "malformed SQL".data⟩
    (by decide) (by decide) (by decide) rfl

/-- The filename comparison used by `sorted(...)` is total. -/
instance : IsTotal MigFile (fun a b => MigFile.fileName a ≤ MigFile.fileName b) :=
  ⟨fun a b => le_total (MigFile.fileName a) (MigFile.fileName b)⟩

/-- The filename comparison used by `sorted(...)` is transitive. -/
instance : IsTrans MigFile (fun a b => MigFile.fileName a ≤ MigFile.fileName b) :=
  ⟨fun _ _ _ => le_trans⟩

/-- Files with equal full filenames have equal stems (the `.sql`
extension cancels on the right). -/
theorem map_stem_eq_of_map_fileName_eq :
    ∀ {l1 l2 : List MigFile},
      l1.map MigFile.fileName = l2.map MigFile.fileName →
      l1.map MigFile.stem = l2.map MigFile.stem := by
  intro l1
  induction l1 with
  | nil =>
      intro l2 h
      cases l2 with
      | nil => rfl
      | cons g l2 => simp at h
  | cons f l1 ih =>
      intro l2 h
      cases l2 with
      | nil => simp at h
      | cons g l2 =>
          simp only [List.map_cons, List.cons.injEq] at h ⊢
          exact ⟨by simpa [MigFile.fileName] using h.1, ih h.2⟩

/-- A fresh-database migration run over healthy, distinctly named files:
everything is pending, everything applies in filename order, and the
history lists the stems in exactly that order. -/
theorem migrate_fresh_all_ok (files : List MigFile)
    (hnd : (files.map MigFile.stem).Nodup)
    (hok : ∀ f ∈ files, f.ok = true) :
    (migrate MigState.fresh (some files)).error = none ∧
    (get_migration_history (migrate MigState.fresh (some files)).state).map
        MigrationRecord.migration_id =
      (List.insertionSort
        (fun a b => MigFile.fileName a ≤ MigFile.fileName b) files).map
        MigFile.stem := by
  have hperm := List.perm_insertionSort
    (fun a b => MigFile.fileName a ≤ MigFile.fileName b) files
  have hpend : get_pending_migrations (appliedMigrations MigState.fresh)
      (some files) = List.insertionSort
        (fun a b => MigFile.fileName a ≤ MigFile.fileName b) files := by
    rw [get_pending_some, List.filter_eq_self]
    intro f _
    simp [appliedMigrations, MigState.fresh]
  have hrun := runPending_all_ok MigState.fresh
    (List.insertionSort (fun a b => MigFile.fileName a ≤ MigFile.fileName b) files)
    (fun f hf => hok f (hperm.mem_iff.mp hf))
    ((hperm.map MigFile.stem).nodup_iff.mpr hnd)
    (by intro f _; simp [appliedMigrations, MigState.fresh])
  have hm : migrate MigState.fresh (some files) =
      runPending MigState.fresh (List.insertionSort
        (fun a b => MigFile.fileName a ≤ MigFile.fileName b) files) := by
    show runPending MigState.fresh
      (get_pending_migrations (appliedMigrations MigState.fresh) (some files)) = _
    rw [hpend]
  rw [hm, hrun]
  refine ⟨rfl, ?_⟩
  unfold get_migration_history
  simp only [MigState.fresh, List.nil_append]
  rw [List.Sorted.insertionSort_eq (newRows_sorted 1 _)]
  rw [List.map_map]
  exact newRows_map_migration_id 1 _

/-- Claim C3: `migrate()` applies pending files sorted by filename in
lexical order regardless of the directory-listing order, and the history
read back afterwards (ordered by insertion id ascending) lists the
migration ids in exactly that sorted order: two listings of the same
files produce identical histories, both equal to the stems of the
filename-sorted file list. -/
theorem migrate_deterministic_order (files files' : List MigFile)
    (hperm : files.Perm files')
    (hnd : (files.map MigFile.stem).Nodup)
    (hok : ∀ f ∈ files, f.ok = true) :
    (migrate MigState.fresh (some files)).error = none ∧
    (migrate MigState.fresh (some files')).error = none ∧
    (get_migration_history (migrate MigState.fresh (some files)).state).map
        MigrationRecord.migration_id =
      (List.insertionSort
        (fun a b => MigFile.fileName a ≤ MigFile.fileName b) files).map
        MigFile.stem ∧
    (get_migration_history (migrate MigState.fresh (some files')).state).map
        MigrationRecord.migration_id =
      (get_migration_history (migrate MigState.fresh (some files)).state).map
        MigrationRecord.migration_id := by
  have h1 := migrate_fresh_all_ok files hnd hok
  have h2 := migrate_fresh_all_ok files'
    ((hperm.map MigFile.stem).nodup_iff.mp hnd)
    (fun f hf => hok f (hperm.mem_iff.mpr hf))
  have hsortperm : (List.insertionSort
      (fun a b => MigFile.fileName a ≤ MigFile.fileName b) files).Perm
        (List.insertionSort
          (fun a b => MigFile.fileName a ≤ MigFile.fileName b) files') :=
    ((List.perm_insertionSort _ files).trans hperm).trans
      (List.perm_insertionSort _ files').symm
  have hnames : (List.insertionSort
      (fun a b => MigFile.fileName a ≤ MigFile.fileName b) files).map
        MigFile.fileName =
      (List.insertionSort
        (fun a b => MigFile.fileName a ≤ MigFile.fileName b) files').map
        MigFile.fileName := by
    have hs1 : List.Sorted (fun a b : List Char => a ≤ b)
        ((List.insertionSort
          (fun a b => MigFile.fileName a ≤ MigFile.fileName b) files).map
            MigFile.fileName) :=
      List.Pairwise.map _ (fun _ _ h => h) (List.sorted_insertionSort _ files)
    have hs2 : List.Sorted (fun a b : List Char => a ≤ b)
        ((List.insertionSort
          (fun a b => MigFile.fileName a ≤ MigFile.fileName b) files').map
            MigFile.fileName) :=
      List.Pairwise.map _ (fun _ _ h => h) (List.sorted_insertionSort _ files')
    exact List.eq_of_perm_of_sorted (hsortperm.map MigFile.fileName) hs1 hs2
  exact ⟨h1.1, h2.1, h1.2,
    h2.2.trans ((map_stem_eq_of_map_fileName_eq hnames.symm).trans h1.2.symm)⟩

/-- Witness for C3 at the example of the spec: files `002_second.sql`,
`001_first.sql`, `003_third.sql` in that directory-listing order, against
a second listing of the same files; the history comes out as
`001_first`, `002_second`, `003_third`. -/
theorem migrate_deterministic_order_witness :
    (get_migration_history (migrate MigState.fresh
        (some [⟨"002_second".data, true, []⟩, ⟨"001_first".data, true, []⟩,
          ⟨"003_third".data, true, []⟩])).state).map
      MigrationRecord.migration_id =
      ["001_first".data, "002_second".data, "003_third".data] ∧
    (get_migration_history (migrate MigState.fresh
        (some [⟨"001_first".data, true, []⟩, ⟨"002_second".data, true, []⟩,
          ⟨"003_third".data, true, []⟩])).state).map
      MigrationRecord.migration_id =
      (get_migration_history (migrate MigState.fresh
        (some [⟨"002_second".data, true, []⟩, ⟨"001_first".data, true, []⟩,
          ⟨"003_third".data, true, []⟩])).state).map
      MigrationRecord.migration_id := by
  have h := migrate_deterministic_order
    [⟨"002_second".data, true, []⟩, ⟨"001_first".data, true, []⟩,
      ⟨"003_third".data, true, []⟩]
    [⟨"001_first".data, true, []⟩, ⟨"002_second".data, true, []⟩,
      ⟨"003_third".data, true, []⟩]
    (by decide) (by decide) (by decide)
  exact ⟨h.2.2.1.trans (by decide), h.2.2.2⟩

/-- Python `str.lower()` applied to a stored text value, modelled
per-character by `Char.toLower` (exact on the ASCII range). -/
def pyLower (s : List Char) : List Char := s.map Char.toLower

/-- The `User` entity (`src/domain/models/user.py`): id 0 stands for
"not yet persisted" (the source also allows `None`, used
interchangeably with 0 at every check site).  Timestamps are abstract
clock values; no claim probes their serialization, which the SQLite
driver round-trips through ISO text. -/
structure User where
  id : Nat
  username : List Char
  created_at : Nat
  updated_at : Nat
  deriving DecidableEq, Repr

/-- Embeds `User.create_new`: fresh user, id 0, both timestamps `now`. -/
def User.create_new (username : List Char) (now : Nat) : User :=
  ⟨0, username, now, now⟩

/-- One row of the `users` table: `(id, username, created_at,
updated_at)`, username in the stored form (lowercase per the spec). -/
structure UserRow where
  id : Nat
  username : List Char
  created_at : Nat
  updated_at : Nat
  deriving DecidableEq, Repr

/-- State of the `users` table plus the next row id the store assigns. -/
structure UsersTable where
  rows : List UserRow
  nextId : Nat
  deriving DecidableEq, Repr

/-- An empty `users` table. -/
def UsersTable.empty : UsersTable := ⟨[], 1⟩

/-- Python dict assignment `d[k] = v` on an insertion-ordered
association list: overwrite in place when the key exists, append
otherwise. -/
def dictSet {α : Type} (m : List (Nat × α)) (k : Nat) (v : α) :
    List (Nat × α) :=
  if m.any (fun q => decide (q.1 = k)) then
    m.map (fun q => if q.1 = k then (k, v) else q)
  else m ++ [(k, v)]

/-- State of `InMemoryUserRepository`
(`src/infrastructure/repositories/memory_repository.py`): the `_users`
dict in insertion order plus `_next_id`. -/
structure InMemoryUserRepository where
  users : List (Nat × User)
  nextId : Nat
  deriving DecidableEq, Repr

/-- A freshly constructed in-memory user repository. -/
def InMemoryUserRepository.empty : InMemoryUserRepository := ⟨[], 1⟩

/-- Embeds `InMemoryUserRepository.save` (memory_repository.py lines
19-47): scan the dict values for a lowercase-equal username and raise
`RepositoryError` on a hit; otherwise assign `_next_id` when the id is
unset (0 / `None`) and store under the resulting id. -/
def InMemoryUserRepository.save (repo : InMemoryUserRepository) (u : User) :
    Except ChatAppError (InMemoryUserRepository × User) :=
  if repo.users.any (fun q => decide (pyLower q.2.username = pyLower u.username)) then
    .error (.repository ("User with username \x27".data ++ u.username ++
      "\x27 already exists".data))
  else
    let u' := if u.id = 0 then User.mk repo.nextId u.username u.created_at u.updated_at
      else u
    let next := if u.id = 0 then repo.nextId + 1 else repo.nextId
    .ok (⟨dictSet repo.users u'.id u', next⟩, u')

/-- Embeds `InMemoryUserRepository.find_by_username` (lines 71-84): the
first dict value whose lowercased username matches the lowercased
input. -/
def InMemoryUserRepository.find_by_username (repo : InMemoryUserRepository)
    (username : List Char) : Option User :=
  (repo.users.find? (fun q => decide (pyLower q.2.username = pyLower username))).map
    Prod.snd

/-- Embeds `InMemoryUserRepository.find_by_id` (lines 60-69): dict
lookup by key. -/
def InMemoryUserRepository.find_by_id (repo : InMemoryUserRepository)
    (user_id : Nat) : Option User :=
  (repo.users.find? (fun q => decide (q.1 = user_id))).map Prod.snd

/-- Embeds `InMemoryUserRepository.get_or_create` (lines 86-98). -/
def InMemoryUserRepository.get_or_create (repo : InMemoryUserRepository)
    (username : List Char) (now : Nat) :
    Except ChatAppError (InMemoryUserRepository × User) :=
  match InMemoryUserRepository.find_by_username repo username with
  | some u => .ok (repo, u)
  | none => InMemoryUserRepository.save repo (User.create_new username now)

/-- The `MessageRole` enum (`src/domain/models/message_role.py`). -/
inductive MessageRole where
  | user
  | assistant
  | system
  deriving DecidableEq, Repr

/-- The `ChatMessage` entity (`src/domain/models/chat_message.py`); id 0
until persisted; the timestamp is the abstract microsecond clock value
of the `datetime`. -/
structure ChatMessage where
  id : Nat
  user_id : Nat
  provider : List Char
  role : MessageRole
  content : List Char
  timestamp : Nat
  deriving DecidableEq, Repr

/-- One stored row of `chat_messages`: role and timestamp are kept in
the serialized TEXT forms the schema declares for them. -/
structure MessageRow where
  id : Nat
  user_id : Nat
  provider : List Char
  role : List Char
  content : List Char
  timestamp : List Char
  deriving DecidableEq, Repr

/-- State of the `chat_messages` table plus the next row id. -/
structure MessagesTable where
  rows : List MessageRow
  nextId : Nat
  deriving DecidableEq, Repr

/-- An empty `chat_messages` table. -/
def MessagesTable.empty : MessagesTable := ⟨[], 1⟩

/-- State of `InMemoryMessageRepository` (memory_repository.py lines
131-266): the `_messages` dict in insertion order plus `_next_id`. -/
structure InMemoryMessageRepository where
  messages : List (Nat × ChatMessage)
  nextId : Nat
  deriving DecidableEq, Repr

/-- A freshly constructed in-memory message repository. -/
def InMemoryMessageRepository.empty : InMemoryMessageRepository := ⟨[], 1⟩

/-- Embeds `InMemoryMessageRepository.save` (lines 138-161): assign
`_next_id` when the id is unset, store under the resulting id. -/
def InMemoryMessageRepository.save (repo : InMemoryMessageRepository)
    (m : ChatMessage) : InMemoryMessageRepository × ChatMessage :=
  let m' := if m.id = 0 then
    ChatMessage.mk repo.nextId m.user_id m.provider m.role m.content m.timestamp
    else m
  let next := if m.id = 0 then repo.nextId + 1 else repo.nextId
  (⟨dictSet repo.messages m'.id m', next⟩, m')

/-- Embeds `InMemoryMessageRepository.find_by_id` (lines 163-172). -/
def InMemoryMessageRepository.find_by_id (repo : InMemoryMessageRepository)
    (message_id : Nat) : Option ChatMessage :=
  (repo.messages.find? (fun q => decide (q.1 = message_id))).map Prod.snd

/-- Embeds `InMemoryMessageRepository.find_by_user_id` (lines 174-200):
filter the dict values by user, sort by timestamp descending (the
Python sort is stable; `reverse=True` only flips the key comparison),
then slice `[offset : offset + limit]`. -/
def InMemoryMessageRepository.find_by_user_id
    (repo : InMemoryMessageRepository) (user_id limit offset : Nat) :
    List ChatMessage :=
  ((List.insertionSort (fun a b : ChatMessage => b.timestamp ≤ a.timestamp)
      ((repo.messages.map Prod.snd).filter
        (fun m => decide (m.user_id = user_id)))).drop offset).take limit

/-- Sorting three items of strictly increasing key with the
descending-key comparison lists them most recent first. -/
theorem insertionSort_desc_three {α β : Type} [LinearOrder β] (key : α → β)
    (x y z : α) (h1 : key x < key y) (h2 : key y < key z) :
    List.insertionSort (fun a b => key b ≤ key a) [x, y, z] = [z, y, x] := by
  have n21 : ¬ (key y ≤ key x) := not_le.mpr h1
  have n31 : ¬ (key z ≤ key x) := not_le.mpr (h1.trans h2)
  have n32 : ¬ (key z ≤ key y) := not_le.mpr h2
  have e0 : List.orderedInsert (fun a b => key b ≤ key a) z [] = [z] := rfl
  have e1 : List.orderedInsert (fun a b => key b ≤ key a) y [z] = [z, y] := by
    simp only [List.orderedInsert]
    rw [if_neg n32]
  have e2 : List.orderedInsert (fun a b => key b ≤ key a) x [z, y] =
      [z, y, x] := by
    simp only [List.orderedInsert]
    rw [if_neg n31, if_neg n21]
  simp only [List.insertionSort, e0, e1, e2]

/-- An int-typed slot of a returned entity under real Python runtime
semantics: either an actual integer, or the coroutine object that
calling an `async def` helper without `await` leaves behind. -/
inductive PyIntSlot where
  | int (n : Nat)
  | coroutine
  deriving DecidableEq, Repr

/-- A raw Python exception escaping the repository layer; `TypeError`
is not part of the `ChatAppError` taxonomy and crosses the repository
boundary untranslated. -/
inductive PyError where
  | typeError (msg : List Char)
  deriving DecidableEq, Repr

/-- The `TypeError` message of subscripting a coroutine object
(`row[0]` inside `_row_to_user` / `_row_to_message`). -/
def coroutineNotSubscriptable : List Char :=
  "\x27coroutine\x27 object is not subscriptable".data

/-- The `TypeError` message of iterating a coroutine object
(`for r in rows`). -/
def coroutineNotIterable : List Char :=
  "\x27coroutine\x27 object is not iterable".data

/-- The `User` object `SQLiteUserRepository.save` actually returns at
runtime: the dataclass constructor does not check annotations, so the
id field holds the coroutine object. -/
structure PyUser where
  id : PyIntSlot
  username : List Char
  created_at : Nat
  updated_at : Nat
  deriving DecidableEq, Repr

/-- The `ChatMessage` object `SQLiteMessageRepository.save` actually
returns at runtime, with the coroutine object in the id field. -/
structure PyChatMessage where
  id : PyIntSlot
  user_id : Nat
  provider : List Char
  role : MessageRole
  content : List Char
  timestamp : Nat
  deriving DecidableEq, Repr

/-- Embeds `SQLiteUserRepository.save`
(`src/infrastructure/repositories/sqlite_user_repository.py` lines
17-40) under Python calling semantics.  Line 26 binds
`self._insert_returning_id(...)` without `await`: calling an
`async def` creates a coroutine object and does not run its body, so
no INSERT or commit happens (the table is unchanged), the
`IntegrityError` to `RepositoryError` mapping inside the helper can
never fire, and no exception is raised.  Lines 35-40 then construct
and return a `User` whose id field holds that coroutine object and
whose username is still the original-cased value of the caller. -/
def SQLiteUserRepository.save (t : UsersTable) (u : User) :
    UsersTable × PyUser :=
  (t, ⟨.coroutine, u.username, u.created_at, u.updated_at⟩)

/-- Embeds `SQLiteUserRepository.find_by_id` (lines 42-55) under Python
calling semantics: line 51 binds the un-awaited `_fetchone` coroutine,
which is not `None`, so `_row_to_user(row)` subscripts a coroutine and
the method raises `TypeError` for every table and every id, before any
row could be produced. -/
def SQLiteUserRepository.find_by_id (_t : UsersTable) (_user_id : Nat) :
    Except PyError (Option User) :=
  .error (.typeError coroutineNotSubscriptable)

/-- Embeds `SQLiteUserRepository.find_by_username` (lines 57-70) under
Python calling semantics: line 66 binds the un-awaited `_fetchone`
coroutine, so the method raises `TypeError` for every table and every
username. -/
def SQLiteUserRepository.find_by_username (_t : UsersTable)
    (_username : List Char) : Except PyError (Option User) :=
  .error (.typeError coroutineNotSubscriptable)

/-- Embeds `SQLiteUserRepository.get_or_create` (lines 87-99) under
Python calling semantics: line 96 does await `self.find_by_username`,
whose body then raises the `TypeError` above, so every call — first and
second alike — raises before reaching the find-then-save logic. -/
def SQLiteUserRepository.get_or_create (_t : UsersTable)
    (_username : List Char) : Except PyError (UsersTable × User) :=
  .error (.typeError coroutineNotSubscriptable)

/-- Embeds `SQLiteMessageRepository.save`
(`src/infrastructure/repositories/sqlite_message_repository.py` lines
18-48) under Python calling semantics: line 27 binds the un-awaited
`_insert_returning_id` coroutine, so nothing is stored, no exception
is raised, and the returned `ChatMessage` (lines 41-48) carries the
coroutine object as its id. -/
def SQLiteMessageRepository.save (t : MessagesTable) (m : ChatMessage) :
    MessagesTable × PyChatMessage :=
  (t, ⟨.coroutine, m.user_id, m.provider, m.role, m.content, m.timestamp⟩)

/-- Embeds `SQLiteMessageRepository.find_by_id` (lines 50-66) under
Python calling semantics: line 59 binds the un-awaited `_fetchone`
coroutine, which is not `None`, so `_row_to_message(row)` subscripts a
coroutine and the method raises `TypeError` for every table and id. -/
def SQLiteMessageRepository.find_by_id (_t : MessagesTable)
    (_message_id : Nat) : Except PyError (Option ChatMessage) :=
  .error (.typeError coroutineNotSubscriptable)

/-- Embeds `SQLiteMessageRepository.find_by_user_id` (lines 68-94)
under Python calling semantics: line 84 binds the un-awaited
`_fetchall` coroutine and line 94 iterates it, raising `TypeError` for
every table, user, limit and offset. -/
def SQLiteMessageRepository.find_by_user_id (_t : MessagesTable)
    (_user_id _limit _offset : Nat) : Except PyError (List ChatMessage) :=
  .error (.typeError coroutineNotIterable)

/-- Claim C4, refuted by the code (code_bug): the in-memory half of the
claim holds, but the SQLite half never occurs at runtime.  Because
line 26 of sqlite_user_repository.py omits the `await`, saving `u` and
then a case-variant duplicate `v` leaves the table unchanged both times
and raises nothing — in particular no `RepositoryError` — and
`find_by_username` with any case variant raises `TypeError` instead of
returning the stored user. -/
theorem username_case_insensitive_uniqueness_bug (t : UsersTable)
    (u v : User) (c : List Char)
    (hv : pyLower v.username = pyLower u.username)
    (hc : pyLower c = pyLower u.username) :
    (SQLiteUserRepository.save t u =
        (t, ⟨.coroutine, u.username, u.created_at, u.updated_at⟩) ∧
      SQLiteUserRepository.save t v =
        (t, ⟨.coroutine, v.username, v.created_at, v.updated_at⟩) ∧
      SQLiteUserRepository.find_by_username t c =
        .error (.typeError coroutineNotSubscriptable)) ∧
    (∃ m1 s1,
      InMemoryUserRepository.save InMemoryUserRepository.empty u = .ok (m1, s1) ∧
      InMemoryUserRepository.save m1 v =
        .error (.repository ("User with username \x27".data ++ v.username ++
          "\x27 already exists".data)) ∧
      InMemoryUserRepository.find_by_username m1 c = some s1) := by
  refine ⟨⟨rfl, rfl, rfl⟩, ?_⟩
  by_cases hid : u.id = 0
  · refine ⟨⟨[(1, ⟨1, u.username, u.created_at, u.updated_at⟩)], 2⟩,
      ⟨1, u.username, u.created_at, u.updated_at⟩, ?_, ?_, ?_⟩
    · simp [InMemoryUserRepository.save, InMemoryUserRepository.empty,
        dictSet, hid]
    · simp [InMemoryUserRepository.save, hv]
    · simp [InMemoryUserRepository.find_by_username, hc]
  · refine ⟨⟨[(u.id, u)], 1⟩, u, ?_, ?_, ?_⟩
    · simp [InMemoryUserRepository.save, InMemoryUserRepository.empty,
        dictSet, hid]
    · simp [InMemoryUserRepository.save, hv]
    · simp [InMemoryUserRepository.find_by_username, hc]

/-- Witness for C4 at the example of the spec: `Alice` stored first,
then `alice`, then a lookup of `ALICE`. -/
theorem username_case_insensitive_uniqueness_bug_witness :
    (SQLiteUserRepository.save UsersTable.empty ⟨0, "Alice".data, 5, 5⟩ =
        (UsersTable.empty, ⟨.coroutine, "Alice".data, 5, 5⟩) ∧
      SQLiteUserRepository.save UsersTable.empty ⟨0, "alice".data, 6, 6⟩ =
        (UsersTable.empty, ⟨.coroutine, "alice".data, 6, 6⟩) ∧
      SQLiteUserRepository.find_by_username UsersTable.empty "ALICE".data =
        .error (.typeError coroutineNotSubscriptable)) ∧
    (∃ m1 s1,
      InMemoryUserRepository.save InMemoryUserRepository.empty
          ⟨0, "Alice".data, 5, 5⟩ = .ok (m1, s1) ∧
      InMemoryUserRepository.save m1 ⟨0, "alice".data, 6, 6⟩ =
        .error (.repository ("User with username \x27".data ++ "alice".data ++
          "\x27 already exists".data)) ∧
      InMemoryUserRepository.find_by_username m1 "ALICE".data = some s1) :=
  username_case_insensitive_uniqueness_bug UsersTable.empty
    ⟨0, "Alice".data, 5, 5⟩ ⟨0, "alice".data, 6, 6⟩ "ALICE".data
    (by decide) (by decide)

/-- Claim C7, refuted by the code (code_bug): the in-memory half holds,
but the SQLite `get_or_create` awaits `find_by_username` (line 96),
whose body subscripts the un-awaited `_fetchone` coroutine (line 66),
so every call — the second as much as the first — raises `TypeError`
instead of returning a user with a stable id. -/
theorem get_or_create_exactly_once_bug (t : UsersTable)
    (repo : InMemoryUserRepository) (username : List Char) (now now2 : Nat)
    (hfresh : ∀ q ∈ repo.users, q.1 ≠ repo.nextId) :
    SQLiteUserRepository.get_or_create t username =
      .error (.typeError coroutineNotSubscriptable) ∧
    (∃ m1 v1 v2,
      InMemoryUserRepository.get_or_create repo username now = .ok (m1, v1) ∧
      InMemoryUserRepository.get_or_create m1 username now2 = .ok (m1, v2) ∧
      v2.id = v1.id) := by
  refine ⟨rfl, ?_⟩
  cases hfind : InMemoryUserRepository.find_by_username repo username with
  | some u =>
      exact ⟨repo, u, u, by simp [InMemoryUserRepository.get_or_create, hfind],
        by simp [InMemoryUserRepository.get_or_create, hfind], rfl⟩
  | none =>
      have hrows : repo.users.find?
          (fun q => decide (pyLower q.2.username = pyLower username)) = none := by
        unfold InMemoryUserRepository.find_by_username at hfind
        cases hx : repo.users.find?
            (fun q => decide (pyLower q.2.username = pyLower username)) with
        | none => rfl
        | some q => rw [hx] at hfind; simp at hfind
      have hnoc : repo.users.any
          (fun q => decide (pyLower q.2.username = pyLower username)) = false := by
        rw [List.any_eq_false]
        intro q hq
        simpa using List.find?_eq_none.mp hrows q hq
      have hnokey : repo.users.any
          (fun q => decide (q.1 = repo.nextId)) = false := by
        rw [List.any_eq_false]
        intro q hq
        simpa using hfresh q hq
      have hfind2 : InMemoryUserRepository.find_by_username
          ⟨repo.users ++ [(repo.nextId, ⟨repo.nextId, username, now, now⟩)],
            repo.nextId + 1⟩ username =
          some ⟨repo.nextId, username, now, now⟩ := by
        unfold InMemoryUserRepository.find_by_username
        rw [List.find?_append, hrows]
        simp
      refine ⟨⟨repo.users ++ [(repo.nextId, ⟨repo.nextId, username, now, now⟩)],
        repo.nextId + 1⟩,
        ⟨repo.nextId, username, now, now⟩,
        ⟨repo.nextId, username, now, now⟩, ?_, ?_, rfl⟩
      · simp [InMemoryUserRepository.get_or_create, hfind,
          InMemoryUserRepository.save, User.create_new, hnoc, dictSet, hnokey]
      · simp [InMemoryUserRepository.get_or_create, hfind2]

/-- Witness for C7 at the example of the spec: `get_or_create("bob")`
twice against fresh stores. -/
theorem get_or_create_exactly_once_bug_witness :
    SQLiteUserRepository.get_or_create UsersTable.empty "bob".data =
      .error (.typeError coroutineNotSubscriptable) ∧
    (∃ m1 v1 v2,
      InMemoryUserRepository.get_or_create InMemoryUserRepository.empty
        "bob".data 7 = .ok (m1, v1) ∧
      InMemoryUserRepository.get_or_create m1 "bob".data 9 = .ok (m1, v2) ∧
      v2.id = v1.id) :=
  get_or_create_exactly_once_bug UsersTable.empty InMemoryUserRepository.empty
    "bob".data 7 9 (by decide)

/-- Claim C10, refuted by the code (code_bug): the lowercased-row versus
original-cased-return behavior never occurs at runtime.  For any user
whose username contains an upper-case letter, `save` inserts no row at
all — the table is unchanged and the returned id slot is the un-awaited
coroutine object (line 26) — and `find_by_id` / `find_by_username`
raise `TypeError` (lines 51 and 66) instead of returning any user. -/
theorem sqlite_save_caller_case_bug (t : UsersTable) (u : User) (uid : Nat)
    (_hup : ∃ ch ∈ u.username, ch.isUpper = true) :
    SQLiteUserRepository.save t u =
      (t, ⟨.coroutine, u.username, u.created_at, u.updated_at⟩) ∧
    SQLiteUserRepository.find_by_id t uid =
      .error (.typeError coroutineNotSubscriptable) ∧
    SQLiteUserRepository.find_by_username t u.username =
      .error (.typeError coroutineNotSubscriptable) :=
  ⟨rfl, rfl, rfl⟩

/-- Witness for C10: saving `Alice` into an empty table stores nothing
and both reads raise. -/
theorem sqlite_save_caller_case_bug_witness :
    SQLiteUserRepository.save UsersTable.empty ⟨0, "Alice".data, 3, 4⟩ =
      (UsersTable.empty, ⟨.coroutine, "Alice".data, 3, 4⟩) ∧
    SQLiteUserRepository.find_by_id UsersTable.empty 1 =
      .error (.typeError coroutineNotSubscriptable) ∧
    SQLiteUserRepository.find_by_username UsersTable.empty "Alice".data =
      .error (.typeError coroutineNotSubscriptable) :=
  sqlite_save_caller_case_bug UsersTable.empty ⟨0, "Alice".data, 3, 4⟩ 1
    (by decide)

/-- Claim C6, refuted by the code (code_bug): the
serialize-then-deserialize round trip never happens.  `save` (line 27
of sqlite_message_repository.py) binds the un-awaited
`_insert_returning_id` coroutine, so nothing is stored and the returned
id is the coroutine object, and `find_by_id` (line 59) subscripts the
un-awaited `_fetchone` coroutine and raises `TypeError` for every id —
so no retrieval by the assigned id can yield the message back. -/
theorem message_roundtrip_bug (t : MessagesTable) (m : ChatMessage)
    (mid : Nat) :
    SQLiteMessageRepository.save t m =
      (t, ⟨.coroutine, m.user_id, m.provider, m.role, m.content,
        m.timestamp⟩) ∧
    SQLiteMessageRepository.find_by_id t mid =
      .error (.typeError coroutineNotSubscriptable) :=
  ⟨rfl, rfl⟩

/-- Claim C5, refuted by the code (code_bug): the in-memory half holds
— three fresh messages with timestamps T1 < T2 < T3 come back T3, T2,
T1 under limit 10 and offset 0 — but the SQLite half never occurs at
runtime: `save` stores nothing (line 27) and `find_by_user_id` iterates
the un-awaited `_fetchall` coroutine (line 84) and raises `TypeError`
for every user, so no ordered list is ever returned. -/
theorem find_by_user_id_descending_bug (uid : Nat) (m1 m2 m3 : ChatMessage)
    (t : MessagesTable)
    (hu1 : m1.user_id = uid) (hu2 : m2.user_id = uid) (hu3 : m3.user_id = uid)
    (h12 : m1.timestamp < m2.timestamp) (h23 : m2.timestamp < m3.timestamp)
    (hid1 : m1.id = 0) (hid2 : m2.id = 0) (hid3 : m3.id = 0) :
    (SQLiteMessageRepository.save t m1 =
        (t, ⟨.coroutine, m1.user_id, m1.provider, m1.role, m1.content,
          m1.timestamp⟩) ∧
      SQLiteMessageRepository.find_by_user_id t uid 10 0 =
        .error (.typeError coroutineNotIterable)) ∧
    InMemoryMessageRepository.find_by_user_id
        (InMemoryMessageRepository.save
          (InMemoryMessageRepository.save
            (InMemoryMessageRepository.save InMemoryMessageRepository.empty
              m1).1 m2).1 m3).1
        uid 10 0 =
      [⟨3, m3.user_id, m3.provider, m3.role, m3.content, m3.timestamp⟩,
        ⟨2, m2.user_id, m2.provider, m2.role, m2.content, m2.timestamp⟩,
        ⟨1, m1.user_id, m1.provider, m1.role, m1.content, m1.timestamp⟩] := by
  refine ⟨⟨rfl, rfl⟩, ?_⟩
  have htbl : (InMemoryMessageRepository.save
      (InMemoryMessageRepository.save
        (InMemoryMessageRepository.save InMemoryMessageRepository.empty
          m1).1 m2).1 m3).1 =
      ⟨[(1, ⟨1, m1.user_id, m1.provider, m1.role, m1.content, m1.timestamp⟩),
        (2, ⟨2, m2.user_id, m2.provider, m2.role, m2.content, m2.timestamp⟩),
        (3, ⟨3, m3.user_id, m3.provider, m3.role, m3.content, m3.timestamp⟩)],
        4⟩ := by
    simp [InMemoryMessageRepository.save, InMemoryMessageRepository.empty,
      hid1, hid2, hid3, dictSet]
  rw [InMemoryMessageRepository.find_by_user_id, htbl]
  show ((List.insertionSort
      (fun a b : ChatMessage => b.timestamp ≤ a.timestamp)
      (List.filter (fun m : ChatMessage => decide (m.user_id = uid))
        [⟨1, m1.user_id, m1.provider, m1.role, m1.content, m1.timestamp⟩,
          ⟨2, m2.user_id, m2.provider, m2.role, m2.content, m2.timestamp⟩,
          ⟨3, m3.user_id, m3.provider, m3.role, m3.content,
            m3.timestamp⟩])).drop 0).take 10 = _
  rw [List.filter_eq_self.mpr (by
    intro m hm
    simp only [List.mem_cons, List.not_mem_nil, or_false] at hm
    rcases hm with rfl | rfl | rfl
    · simpa using hu1
    · simpa using hu2
    · simpa using hu3)]
  rw [show (List.insertionSort
      (fun a b : ChatMessage => b.timestamp ≤ a.timestamp)
      [⟨1, m1.user_id, m1.provider, m1.role, m1.content, m1.timestamp⟩,
        ⟨2, m2.user_id, m2.provider, m2.role, m2.content, m2.timestamp⟩,
        ⟨3, m3.user_id, m3.provider, m3.role, m3.content, m3.timestamp⟩]) =
      _ from
    insertionSort_desc_three ChatMessage.timestamp _ _ _ h12 h23]
  rw [List.drop_zero, List.take_of_length_le (by simp)]

/-- Witness for C5: three messages with timestamps 1 < 2 < 3 for user
42; the SQLite side stores nothing and raises, the in-memory side
returns them most recent first. -/
theorem find_by_user_id_descending_bug_witness :
    (SQLiteMessageRepository.save MessagesTable.empty
        ⟨0, 42, "ollama".data, .user, "a".data, 1⟩ =
        (MessagesTable.empty,
          ⟨.coroutine, 42, "ollama".data, .user, "a".data, 1⟩) ∧
      SQLiteMessageRepository.find_by_user_id MessagesTable.empty 42 10 0 =
        .error (.typeError coroutineNotIterable)) ∧
    InMemoryMessageRepository.find_by_user_id
        (InMemoryMessageRepository.save
          (InMemoryMessageRepository.save
            (InMemoryMessageRepository.save InMemoryMessageRepository.empty
              ⟨0, 42, "ollama".data, .user, "a".data, 1⟩).1
            ⟨0, 42, "ollama".data, .assistant, "b".data, 2⟩).1
          ⟨0, 42, "ollama".data, .user, "c".data, 3⟩).1
        42 10 0 =
      [⟨3, 42, "ollama".data, .user, "c".data, 3⟩,
        ⟨2, 42, "ollama".data, .assistant, "b".data, 2⟩,
        ⟨1, 42, "ollama".data, .user, "a".data, 1⟩] :=
  find_by_user_id_descending_bug 42
    ⟨0, 42, "ollama".data, .user, "a".data, 1⟩
    ⟨0, 42, "ollama".data, .assistant, "b".data, 2⟩
    ⟨0, 42, "ollama".data, .user, "c".data, 3⟩
    MessagesTable.empty
    rfl rfl rfl (by norm_num) (by norm_num) rfl rfl rfl

/-- State of the `DatabaseConnection` manager
(`src/infrastructure/database/connection.py`): `self._connection`, which
is either `None` or a live connection handle (the handle abstracts the
`aiosqlite.Connection` object identity). -/
structure DatabaseConnection where
  connection_ref : Option Nat
  deriving DecidableEq, Repr

/-- A manager on which `init()` has never been run. -/
def DatabaseConnection.fresh : DatabaseConnection := ⟨none⟩

/-- The message of the accessor failure. -/
def notInitializedMsg : List Char :=
  "Database connection not initialized. Call init() first.".data

/-- Embeds the `connection` property (connection.py lines 103-115):
raise `StorageError` when no connection is held, return the live
connection otherwise. -/
def DatabaseConnection.connection (s : DatabaseConnection) :
    Except ChatAppError Nat :=
  match s.connection_ref with
  | none => .error (.storage notInitializedMsg)
  | some c => .ok c

/-- Embeds `DatabaseConnection.init` (lines 117-139) under the lock: if
no connection is held, open one (`newConn` abstracts the fresh handle
`aiosqlite.connect` returns) and run the migration engine, whose outcome
is `migrateErr` (`none` on success).  As in the source, the connection
attribute is assigned before `migrate()` runs, and a `StorageError`
raised by the migrator propagates without clearing it. -/
def DatabaseConnection.init (s : DatabaseConnection) (newConn : Nat)
    (migrateErr : Option ChatAppError) :
    DatabaseConnection × Option ChatAppError :=
  match s.connection_ref with
  | some _ => (s, none)
  | none => (⟨some newConn⟩, migrateErr)

/-- Embeds `DatabaseConnection.close` (lines 161-166): close the
connection if open and clear the reference. -/
def DatabaseConnection.close (_s : DatabaseConnection) : DatabaseConnection :=
  ⟨none⟩

/-- Claim C8: reading the `connection` accessor before `init()` ever
completed raises a `StorageError`; after a successful `init()` it
returns the live connection; and `close()` clears the reference, so the
accessor raises again until a subsequent `init()` is run. -/
theorem connection_accessor_lifecycle (c c' : Nat) :
    DatabaseConnection.fresh.connection = .error (.storage notInitializedMsg) ∧
    DatabaseConnection.fresh.init c none = (⟨some c⟩, none) ∧
    (DatabaseConnection.mk (some c)).connection = .ok c ∧
    ((DatabaseConnection.mk (some c)).close).connection =
      .error (.storage notInitializedMsg) ∧
    ((DatabaseConnection.mk (some c)).close).init c' none = (⟨some c'⟩, none) ∧
    (DatabaseConnection.mk (some c')).connection = .ok c' :=
  ⟨rfl, rfl, rfl, rfl, rfl, rfl⟩
